import Mathlib

/-!
Verification development for the `neural_canvas` generation/regeneration
pipeline (repository `INart`).

The development shallowly embeds the parts of the code the claims are about:

* `neural_canvas/utils/utils.py`
  - the latent trajectory engine `lerp`, `slerp`, `rspline`, `lemniscate`
    (torch tensors are idealized as real vectors `Fin d → ℝ`, the per-state
    shape descriptor is kept as an abstract `List ℕ`);
  - the metadata decoder `load_tif_metadata` (the raw TIFF metadata block is
    modelled as a record of optional fields, the surrounding file/parse
    failure handling as an explicit result type).
* `neural_canvas/runners/runner2d.py`
  - `RunnerINRF2D.run_frames` (the model collaborator's generated frames are
    an input list, pixels are the post-cast 8-bit values as naturals);
  - `RunnerINRF2D.regen_frames` (a loop over the input paths carrying the
    filesystem, the count of model reconstructions and the Python local
    variable `frames`, short-circuited by the exception every non-skipped
    iteration raises inside `reinit_model_from_metadata`).
-/

namespace NeuralCanvas

/-- A latent state as handed around by the trajectory engine:
`{'sample': <numeric array>, 'sample_shape': <shape descriptor>}`. -/
structure LatentState (α : Type) where
  sample : α
  sample_shape : List Nat
deriving DecidableEq

instance {α : Type} [Inhabited α] : Inhabited (LatentState α) :=
  ⟨⟨default, []⟩⟩

/-- Model of `torch.linspace(a, b, steps)`: `steps` evenly spaced points from
`a` to `b` inclusive (a single point `a` when `steps = 1`). -/
noncomputable def linspace (a b : ℝ) (steps : ℕ) : List ℝ :=
  if steps = 1 then [a]
  else (List.range steps).map (fun i : ℕ => a + (b - a) * (i : ℝ) / ((steps - 1 : ℕ) : ℝ))

/-- Embedding of `utils.lerp(z1, z2, n)` (utils.py lines 18-28):
`delta = (z2.sample - z1.sample) / (n + 1)` and `n + 2` states
`z1.sample + delta * i` for `i = 0, …, n + 1`, each carrying
`z1.sample_shape`. -/
noncomputable def lerp {d : ℕ} (z1 z2 : LatentState (Fin d → ℝ)) (n : ℕ) :
    List (LatentState (Fin d → ℝ)) :=
  let delta : Fin d → ℝ := fun j => (z2.sample j - z1.sample j) / (n + 1)
  (List.range (n + 2)).map (fun i : ℕ =>
    ⟨fun j => z1.sample j + delta j * (i : ℝ), z1.sample_shape⟩)

/-- Squared-sum Euclidean norm, the model of `torch.norm(x, p=2, dim=-1)`. -/
noncomputable def l2norm {d : ℕ} (u : Fin d → ℝ) : ℝ :=
  Real.sqrt (∑ j, u j * u j)

/-- Elementwise division by the Euclidean norm, the model of
`z / torch.norm(z, p=2, dim=-1, keepdim=True)` in `slerp`. -/
noncomputable def normalize {d : ℕ} (u : Fin d → ℝ) : Fin d → ℝ :=
  fun j => u j / l2norm u

/-- Dot product, the model of `torch.sum(z1_norm * z2_norm, dim=1)`. -/
noncomputable def dotp {d : ℕ} (u v : Fin d → ℝ) : ℝ := ∑ j, u j * v j

/-- Model of `torch.clamp(x, lo, hi)`. -/
noncomputable def clampR (lo hi x : ℝ) : ℝ := max lo (min x hi)

/-- The angle `theta = torch.acos(torch.clamp(dot, -1.0, 1.0))` computed by
`slerp` between the two normalized endpoints (utils.py lines 34-38). -/
noncomputable def slerpTheta {d : ℕ} (u v : Fin d → ℝ) : ℝ :=
  Real.arccos (clampR (-1) 1 (dotp (normalize u) (normalize v)))

/-- Embedding of `utils.slerp(z1, z2, n)` (utils.py lines 31-50): normalize
both endpoints, take the clamped-dot-product angle `theta`, sample the angles
`torch.linspace(0, 2*pi, n+1)[:-1]`, and for each angle `t` return the state
`sin((1 - t/theta)*theta)/sin(theta) * z1n + sin(t/theta*theta)/sin(theta) * z2n`
carrying `z1.sample_shape`.  Real division here is total (`x / 0 = 0`); the
embedding agrees with the program wherever the divisors `theta` and
`sin(theta)` are nonzero, i.e. for `0 < theta < pi` — the regime of the slerp
theorems below.  Where a sine weight divides by `sin(theta) = 0` the source's
float computation is itself degenerate and the model's value is the
convention's. -/
noncomputable def slerp {d : ℕ} (z1 z2 : LatentState (Fin d → ℝ)) (n : ℕ) :
    List (LatentState (Fin d → ℝ)) :=
  let z1n := normalize z1.sample
  let z2n := normalize z2.sample
  let theta := slerpTheta z1.sample z2.sample
  let angles := (linspace 0 (2 * Real.pi) (n + 1)).dropLast
  angles.map (fun angle =>
    ⟨fun j => (Real.sin ((1 - angle / theta) * theta) / Real.sin theta) * z1n j
            + (Real.sin (angle / theta * theta) / Real.sin theta) * z2n j,
     z1.sample_shape⟩)

/-- Embedding of `utils.rspline(z_points, n, degree)` (utils.py lines 53-86).
The spline fitting itself (`scipy.interpolate.splprep` on the closed control
polygon, including the degree clamping and the squeeze/unsqueeze of bracketed
singleton dimensions) is an external collaborator; it is abstracted as the
evaluation function `splev` of the fitted periodic spline.  The function
samples `u_new = np.linspace(0, 1, n)`, evaluates the spline there, and wraps
each point in a state carrying `z_points[0].sample_shape`.  The matplotlib
plotting calls are side effects with no influence on the returned states and
are omitted. -/
noncomputable def rspline {d : ℕ} (splev : ℝ → (Fin d → ℝ))
    (z_points : List (LatentState (Fin d → ℝ))) (n : ℕ) :
    List (LatentState (Fin d → ℝ)) :=
  let u_new := linspace 0 1 n
  let points := u_new.map splev
  points.map (fun point => ⟨point, z_points.headI.sample_shape⟩)

/-- Minimum of a list of reals (`x.min()` on a nonempty tensor). -/
noncomputable def listMin : List ℝ → ℝ
  | [] => 0
  | x :: xs => xs.foldl min x

/-- Maximum of a list of reals (`x.max()` on a nonempty tensor). -/
noncomputable def listMax : List ℝ → ℝ
  | [] => 0
  | x :: xs => xs.foldl max x

/-- Embedding of `utils.lemniscate(z1, z2, n, a)` (utils.py lines 89-113):
trace the figure-eight curve at `n + 2` parameter values, shift/scale its `x`
and `y` coordinate lists into `[0, 1]`, rescale both onto the `[z1, z2]`
range (the scalar curve coordinate multiplying the latent difference vector
elementwise), and combine the two rescaled axes per sample as the complex
value `x_scaled[i] + y_scaled[i] * 1j`, each state carrying
`z1.sample_shape`. -/
noncomputable def lemniscate {d : ℕ} (z1 z2 : LatentState (Fin d → ℝ)) (n : ℕ) (a : ℝ) :
    List (LatentState (Fin d → ℂ)) :=
  let t_values := linspace 0 (2 * Real.pi) (n + 2)
  let x0 := t_values.map (fun t => a * Real.cos t / (1 + Real.sin t ^ 2))
  let y0 := t_values.map (fun t => a * Real.cos t * Real.sin t / (1 + Real.sin t ^ 2))
  let x1 := x0.map (fun v => v - listMin x0)
  let x2 := x1.map (fun v => v / listMax x1)
  let y1 := y0.map (fun v => v - listMin y0)
  let y2 := y1.map (fun v => v / listMax y1)
  (List.range (n + 2)).map (fun i =>
    ⟨fun j => ((z1.sample j + (z2.sample j - z1.sample j) * x2.getD i 0 : ℝ) : ℂ)
            + ((z1.sample j + (z2.sample j - z1.sample j) * y2.getD i 0 : ℝ) : ℂ) * Complex.I,
     z1.sample_shape⟩)

/-! ## MetadataCodec: `utils.load_tif_metadata` (utils.py lines 201-256)

The raw metadata block embedded in the TIFF (`tif.shaped_metadata[0]`) is
modelled as a record: the identity fields the decoder unconditionally indexes
(`seed`, …, `device`) are plain values — on a file missing one of them the
uncaught `KeyError` would escape the decoder, and the spec calls them
"required always" — while every other key is an `Option`.  Numeric tensor
entries are idealized as rationals. -/

/-- The raw decoded metadata block of an archival TIFF file. -/
structure RawData where
  seed : Int
  latent_dim : Int
  latent_scale : ℚ
  x_dim : Int
  y_dim : Int
  c_dim : Int
  device : String
  z_dim : Option Int
  mlp_layer_width : Option Int
  conv_feature_map_size : Option Int
  input_encoding_dim : Option Int
  num_graph_nodes : Option Int
  weight_init_mean : Option ℚ
  weight_init_std : Option ℚ
  weight_init_max : Option ℚ
  weight_init_min : Option ℚ
  activations : Option String
  graph : Option String
  final_activation : Option String
  weight_init : Option String
  graph_topology : Option String
  latents : Option (List ℚ)
  latent : Option (List ℚ)
deriving DecidableEq

/-- The metadata dictionary built by `load_tif_metadata` after all field
extraction and post-processing. -/
structure Metadata where
  seed : Int
  latent_dim : Int
  latent_scale : ℚ
  x_dim : Int
  y_dim : Int
  c_dim : Int
  device : String
  z_dim : Int
  mlp_layer_width : Option Int
  conv_feature_map_size : Option Int
  input_encoding_dim : Option Int
  num_graph_nodes : Option Int
  weight_init_mean : Option ℚ
  weight_init_std : Option ℚ
  weight_init_max : Option ℚ
  weight_init_min : Option ℚ
  activations : Option String
  graph : Option String
  final_activation : Option String
  weight_init : Option String
  graph_topology : Option String
  latents : Option (List ℚ)
deriving DecidableEq

/-- Field extraction and post-processing of `load_tif_metadata`
(utils.py lines 210-255): required keys are copied, `z_dim` falls back to
`x_dim`, optional int/float/string keys each default to `None` with a
warning, the `latents` tensor falls back to the legacy singular `latent` key
and then to `None`, and finally a `None` `input_encoding_dim` is set to `1`
and a `'basic'` `activations` value is rewritten to `'fixed'`. -/
def load_tif_metadata_fields (data : RawData) : Metadata :=
  let metadata : Metadata :=
    { seed := data.seed
      latent_dim := data.latent_dim
      latent_scale := data.latent_scale
      x_dim := data.x_dim
      y_dim := data.y_dim
      c_dim := data.c_dim
      device := data.device
      z_dim := match data.z_dim with
        | some z => z
        | none => data.x_dim
      mlp_layer_width := data.mlp_layer_width
      conv_feature_map_size := data.conv_feature_map_size
      input_encoding_dim := data.input_encoding_dim
      num_graph_nodes := data.num_graph_nodes
      weight_init_mean := data.weight_init_mean
      weight_init_std := data.weight_init_std
      weight_init_max := data.weight_init_max
      weight_init_min := data.weight_init_min
      activations := data.activations
      graph := data.graph
      final_activation := data.final_activation
      weight_init := data.weight_init
      graph_topology := data.graph_topology
      latents := match data.latents with
        | some t => some t
        | none => match data.latent with
          | some t => some t
          | none => none }
  let metadata :=
    { metadata with input_encoding_dim :=
        if metadata.input_encoding_dim = none then some 1
        else metadata.input_encoding_dim }
  let metadata :=
    { metadata with activations :=
        if metadata.activations = some "basic" then some "fixed"
        else metadata.activations }
  metadata

/-- Outcome of a `load_tif_metadata(path)` call: `raised` models an exception
escaping the function (the `assert os.path.isfile(path)` on line 202 failing),
`softNone` models the `except` branch returning the sentinel `(None, None)`
with a warning, and `ok` carries the decoded metadata (the pixel array is
irrelevant to the claims and omitted). -/
inductive LoadResult
  | raised : LoadResult
  | softNone : LoadResult
  | ok : Metadata → LoadResult
deriving DecidableEq

/-- Embedding of the whole of `load_tif_metadata(path)` (utils.py lines
201-256).  `pathIsFile` is whether `os.path.isfile(path)` holds; `openParse`
is the outcome of the `try` block (`tifffile.TiffFile(path)` +
`tif.shaped_metadata[0]`): `none` when opening the file or reading its
metadata block throws (caught by the bare `except`), `some data` when it
yields a raw metadata block. -/
def load_tif_metadata (pathIsFile : Bool) (openParse : Option RawData) : LoadResult :=
  if !pathIsFile then LoadResult.raised
  else
    match openParse with
    | none => LoadResult.softNone
    | some data => LoadResult.ok (load_tif_metadata_fields data)

/-! ## FrameSynthesisPipeline: `RunnerINRF2D.run_frames` (runner2d.py lines 57-126)

One loop iteration per requested sample: the model collaborator's generated,
denormalized, uint8-cast frame is abstracted as its pixel list (`List ℕ`) and
the `self.model._metadata(meta_latents)` value of that iteration as an
abstract token, so an invocation is characterized by the list of
(frame, metadata) pairs the collaborator would produce for `i = 0, …,
num_samples - 1`.  Zoom/pan resolution and autosaving do not affect the
returned lists. -/

/-- Model of `frame.max() - frame.min()` on the flattened uint8 pixel array
(nonempty in the code: the array has `x_dim * y_dim * c_dim ≥ 1` entries). -/
def frameSpan : List ℕ → ℕ
  | [] => 0
  | x :: xs => xs.foldl max x - xs.foldl min x

/-- Embedding of the `run_frames` generation loop (runner2d.py lines 85-126):
with `skip_blank_generations` set, a frame whose pixel span is below 15 is
skipped (`continue`) before either list is appended to; otherwise its
metadata and the frame itself are appended, in iteration order. -/
def runFrames {μ : Type} (skipBlank : Bool) : List (List ℕ × μ) → List (List ℕ) × List μ
  | [] => ([], [])
  | (f, m) :: rest =>
    let r := runFrames skipBlank rest
    if skipBlank ∧ frameSpan f < 15 then r
    else (f :: r.1, m :: r.2)

/-! ## ReproductionOrchestrator: `RunnerINRF2D.regen_frames` (runner2d.py lines 160-222)

Paths are character lists; the Python string operations on them are embedded
one-for-one.  The file name probed by the idempotency check is modelled
structurally, with the naming scheme of `utils.write_image`:
`FileName.png base i cmap` stands for the flat name `f'{base}_{i}_{cmap}.png'`
(or `f'{base}_{i}.png'` without a fan-out suffix) and `FileName.tif base i`
for `f'{base}_{i}.tif'`.

A non-skipped iteration of the loop never completes:
`reinit_model_from_metadata` (runner2d.py lines 128-158) decodes the file's
metadata, reconstructs the model, and then executes
`return metadata['latent']` — but `load_tif_metadata` only ever stores the
tensor under the `'latents'` key (utils.py lines 241-250), so this line
unconditionally raises `KeyError: 'latent'`, which propagates out of
`regen_frames`.  (On a file whose metadata block cannot be decoded at all the
iteration dies even earlier, subscripting the `(None, None)` sentinel; the
model below embeds the valid-metadata case.)  Everything after that call —
the `run_frames` invocation, the png/tif writes, the `frames` assignments on
lines 206, 212 and 221 — is dead code behind the raise and is not modelled. -/

/-- Paths and path fragments as character lists. -/
abbrev PathStr := List Char

/-- Model of `str.endswith(suffix)`. -/
def endsWithStr (s suffix : PathStr) : Bool := suffix.isSuffixOf s

/-- Model of `str.split(sep)[0]` for a nonempty separator: the part of the
string before the first occurrence of `sep` (the whole string when `sep` does
not occur). -/
def splitFirstAt (sep : PathStr) : PathStr → PathStr
  | [] => []
  | c :: rest => if sep.isPrefixOf (c :: rest) then [] else c :: splitFirstAt sep rest

/-- Model of the Python slice `s[:-k]`. -/
def dropRightStr (s : PathStr) (k : ℕ) : PathStr := s.take (s.length - k)

/-- Model of `os.path.basename` for the paths at hand: the part after the
last `'/'`. -/
def basenameStr (s : PathStr) : PathStr :=
  s.foldl (fun acc c => if c = '/' then [] else acc ++ [c]) []

/-- The characters of `'reproduce'`. -/
def reproduceChars : PathStr := ['r','e','p','r','o','d','u','c','e']

/-- The characters of `'_reproduce'`. -/
def underscoreReproduceChars : PathStr := '_' :: reproduceChars

/-- The characters of `'rgb'`. -/
def rgbChars : PathStr := ['r','g','b']

/-- The output-name derivation of `regen_frames` (runner2d.py lines 195-198):
`basename = os.path.basename(path)`; if `basename.endswith('reproduce')` then
`basename = basename.split('_reproduce')[0]`; the save base is
`f'{basename[:-4]}_reproduce'`. -/
def deriveBase (basename : PathStr) : PathStr :=
  let b := if endsWithStr basename reproduceChars
           then splitFirstAt underscoreReproduceChars basename
           else basename
  dropRightStr b 4 ++ underscoreReproduceChars

/-- Structured model of the file names `regen_frames` probes for (and the
ones `utils.write_image` would produce). -/
inductive FileName
  | png : PathStr → ℕ → Option PathStr → FileName
  | tif : PathStr → ℕ → FileName
deriving DecidableEq

/-- The save base `os.path.join(self.output_dir, f'{basename[:-4]}_reproduce')`
for an input path. -/
def saveFnFor (outputDir : PathStr) (p : PathStr) : PathStr :=
  outputDir ++ '/' :: deriveBase (basenameStr p)

/-- The name probed by the idempotency check
`os.path.exists(save_fn + '_0_rgb.png')` (runner2d.py line 199). -/
def expectedFirst (saveFn : PathStr) : FileName :=
  FileName.png saveFn 0 (some rgbChars)

/-- The Python local variable `frames` of `regen_frames`: unbound before any
assignment, Python `None`, or a list of the given length.  The assignments
that could bind it (runner2d.py lines 206, 212, 221) all sit behind the
raising `reinit_model_from_metadata` call; the variable is kept in the state
so that "it is never assigned" is a theorem rather than a constraint baked
into the model. -/
inductive FramesVar
  | unbound : FramesVar
  | pynone : FramesVar
  | pylist : ℕ → FramesVar
deriving DecidableEq

/-- State threaded through the `regen_frames` loop: the files on disk, how
many times `reinit_model_from_metadata` decoded a metadata block and
reconstructed a model, and the current value of the local `frames`. -/
structure RegenState where
  fs : List FileName
  recon : ℕ
  frames : FramesVar
deriving DecidableEq

/-- The exceptions a `regen_frames` call can end with: the `KeyError:
'latent'` from `return metadata['latent']` (runner2d.py line 158), or the
`UnboundLocalError` of `return frames` when no iteration assigned the local. -/
inductive RegenError
  | keyErrorLatent : RegenError
  | unboundLocalFrames : RegenError
deriving DecidableEq

/-- Outcome of a `regen_frames` call: an exception escaping it, or a normal
return of the `frames` local's value. -/
inductive RegenOutcome
  | raised : RegenError → RegenState → RegenOutcome
  | returned : FramesVar → RegenState → RegenOutcome
deriving DecidableEq

/-- Whether the outcome is an exception rather than a normal return. -/
def RegenOutcome.isRaised : RegenOutcome → Bool
  | RegenOutcome.raised _ _ => true
  | RegenOutcome.returned _ _ => false

/-- The loop state the outcome ends in (on-disk files, reconstruction count,
`frames` local). -/
def RegenOutcome.finalState : RegenOutcome → RegenState
  | RegenOutcome.raised _ st => st
  | RegenOutcome.returned _ st => st

/-- The `regen_frames` loop (runner2d.py lines 194-222) over the resolved
input paths.  A file whose expected first output exists is skipped
(`continue`) before any metadata decode; otherwise
`reinit_model_from_metadata` runs — one metadata decode plus one model
reconstruction, counted in `recon` — and its `return metadata['latent']`
raises `KeyError`, aborting the whole call with nothing written.  When the
loop finishes, `return frames` raises `UnboundLocalError` if `frames` was
never assigned and otherwise returns its value. -/
def regenLoop (outputDir : PathStr) : List PathStr → RegenState → RegenOutcome
  | [], st =>
    match st.frames with
    | FramesVar.unbound => RegenOutcome.raised RegenError.unboundLocalFrames st
    | v => RegenOutcome.returned v st
  | p :: rest, st =>
    if expectedFirst (saveFnFor outputDir p) ∈ st.fs then regenLoop outputDir rest st
    else RegenOutcome.raised RegenError.keyErrorLatent ⟨st.fs, st.recon + 1, st.frames⟩

/-- Embedding of `regen_frames(path, ...)` (runner2d.py lines 160-222) over
an already resolved list of input tif paths (`glob` result for a directory, a
singleton for a file), starting from the given on-disk state with the local
`frames` unbound. -/
def regenFrames (outputDir : PathStr) (inputs : List PathStr)
    (fs0 : List FileName) : RegenOutcome :=
  regenLoop outputDir inputs ⟨fs0, 0, FramesVar.unbound⟩

/-! ## Claims about the metadata decoder -/

/-- C1: decoding an archival file's metadata applies the documented legacy
defaults: an absent `z_dim` defaults to the decoded `x_dim`; an absent
`latents` key falls back to the legacy singular `latent` key, and to `None`
when neither is present; an `input_encoding_dim` that resolved to `None` is
set to `1`; an `activations` value of `'basic'` is normalized to `'fixed'`. -/
theorem load_tif_metadata_legacy_defaults (data : RawData) :
    (data.z_dim = none → (load_tif_metadata_fields data).z_dim = data.x_dim)
  ∧ (data.latents = none → (load_tif_metadata_fields data).latents = data.latent)
  ∧ (data.input_encoding_dim = none →
      (load_tif_metadata_fields data).input_encoding_dim = some 1)
  ∧ (data.activations = some "basic" →
      (load_tif_metadata_fields data).activations = some "fixed") := by
  refine ⟨fun h => ?_, fun h => ?_, fun h => ?_, fun h => ?_⟩ <;>
    simp only [load_tif_metadata_fields, h] <;>
    first
      | rfl
      | (cases data.latent <;> rfl)

/-- An all-optional-fields-absent legacy metadata block with a singular
`latent` key and `activations = 'basic'`, exercising every default of C1. -/
def rawLegacyExample : RawData :=
  ⟨42, 8, 1, 64, 64, 3, "cpu", none, none, none, none, none, none, none, none,
   none, some "basic", none, none, none, none, none, some [2]⟩

/-- Witness for C1: on `rawLegacyExample` all four hypotheses hold and the
decoder produces the documented defaults. -/
theorem load_tif_metadata_legacy_defaults_witness :
    rawLegacyExample.z_dim = none
  ∧ rawLegacyExample.latents = none
  ∧ rawLegacyExample.input_encoding_dim = none
  ∧ rawLegacyExample.activations = some "basic"
  ∧ (load_tif_metadata_fields rawLegacyExample).z_dim = 64
  ∧ (load_tif_metadata_fields rawLegacyExample).latents = some [2]
  ∧ (load_tif_metadata_fields rawLegacyExample).input_encoding_dim = some 1
  ∧ (load_tif_metadata_fields rawLegacyExample).activations = some "fixed" :=
  ⟨rfl, rfl, rfl, rfl,
   (load_tif_metadata_legacy_defaults rawLegacyExample).1 rfl,
   (load_tif_metadata_legacy_defaults rawLegacyExample).2.1 rfl,
   (load_tif_metadata_legacy_defaults rawLegacyExample).2.2.1 rfl,
   (load_tif_metadata_legacy_defaults rawLegacyExample).2.2.2 rfl⟩

/-- C2, counterexample to the claim as stated: for a path that is not an
existing regular file — a path whose archival file certainly cannot be
opened — `load_tif_metadata` does not return the soft `(None, None)`
sentinel; the `assert os.path.isfile(path)` on utils.py line 202 raises
before the guarded `try` block is reached. -/
theorem load_tif_metadata_missing_file_raises :
    load_tif_metadata false none = LoadResult.raised
  ∧ LoadResult.raised ≠ LoadResult.softNone := by
  exact ⟨rfl, by decide⟩

/-- C2, amended: for every path that exists as a regular file, whatever way
opening the file or parsing its metadata block fails inside the `try` block,
`load_tif_metadata` never raises; a failed open/parse yields the soft
`(None, None)` sentinel. -/
theorem load_tif_metadata_soft_failure (openParse : Option RawData) :
    load_tif_metadata true openParse ≠ LoadResult.raised
  ∧ (openParse = none → load_tif_metadata true openParse = LoadResult.softNone) := by
  cases openParse <;> simp [load_tif_metadata]

/-- Witness for the amended C2 at the concrete failed-parse outcome. -/
theorem load_tif_metadata_soft_failure_witness :
    load_tif_metadata true none ≠ LoadResult.raised
  ∧ ((none : Option RawData) = none ∧ load_tif_metadata true none = LoadResult.softNone) :=
  ⟨(load_tif_metadata_soft_failure none).1, rfl,
   (load_tif_metadata_soft_failure none).2 rfl⟩

/-! ## Claims about regen_frames -/

/-- C4: evaluation at an input that is itself the output of a previous
reproduction.  Its basename `'x_reproduce_0.tif'` ends in `'.tif'`, so the
`basename.endswith('reproduce')` guard on runner2d.py line 196 is false, the
`_reproduce`-stripping branch is dead, and the derived save base
`'x_reproduce_0_reproduce'` accumulates a second `_reproduce` suffix instead
of stripping the first one. -/
theorem regen_frames_reproduce_suffix_accumulates :
    endsWithStr "x_reproduce_0.tif".toList reproduceChars = false
  ∧ deriveBase "x_reproduce_0.tif".toList = "x_reproduce_0_reproduce".toList := by
  decide

/-- C3: evaluation at the failing input.  For a fresh valid archival file the
existence check misses (nothing is on disk yet), `reinit_model_from_metadata`
decodes the metadata and reconstructs the model, and the call then aborts
with `KeyError: 'latent'` having written nothing — so the expected first
output never comes into existence, and a second run against the unchanged
directory decodes and reconstructs again instead of skipping the file. -/
theorem regen_frames_second_run_reconstructs :
    regenFrames "out".toList ["in/a.tif".toList] []
      = RegenOutcome.raised RegenError.keyErrorLatent ⟨[], 1, FramesVar.unbound⟩
  ∧ regenFrames "out".toList ["in/a.tif".toList]
      (regenFrames "out".toList ["in/a.tif".toList] []).finalState.fs
      = RegenOutcome.raised RegenError.keyErrorLatent ⟨[], 1, FramesVar.unbound⟩ := by
  decide

theorem regenLoop_never_returns (outputDir : PathStr) :
    ∀ (inputs : List PathStr) (st : RegenState), st.frames = FramesVar.unbound →
      (regenLoop outputDir inputs st).isRaised = true := by
  intro inputs
  induction inputs with
  | nil =>
    intro st h
    simp [regenLoop, h, RegenOutcome.isRaised]
  | cons p rest ih =>
    intro st h
    by_cases hmem : expectedFirst (saveFnFor outputDir p) ∈ st.fs
    · rw [show regenLoop outputDir (p :: rest) st = regenLoop outputDir rest st from by
        simp [regenLoop, hmem]]
      exact ih st h
    · simp [regenLoop, hmem, RegenOutcome.isRaised]

/-- C10, amended: `regen_frames` never delivers regenerated frames through
its return value, because it never returns a value at all: any non-skipped
file raises `KeyError: 'latent'` inside `reinit_model_from_metadata` before
the local `frames` is ever assigned, and when every file is skipped by the
existence check (or there is no input file) the final `return frames` raises
`UnboundLocalError` on the still-unbound local. -/
theorem regen_frames_never_returns_frames (outputDir : PathStr)
    (inputs : List PathStr) (fs0 : List FileName) :
    (regenFrames outputDir inputs fs0).isRaised = true :=
  regenLoop_never_returns outputDir inputs ⟨fs0, 0, FramesVar.unbound⟩ rfl

/-- C10, counterexample to the claim as stated: on a single fresh input file
`regen_frames` does not return `None` — after one metadata decode and model
reconstruction it raises `KeyError: 'latent'`, before the local `frames` is
ever assigned, so no value is returned to the caller. -/
theorem regen_frames_key_error_not_none :
    regenFrames "o".toList ["a.tif".toList] []
      = RegenOutcome.raised RegenError.keyErrorLatent ⟨[], 1, FramesVar.unbound⟩
  ∧ (regenFrames "o".toList ["a.tif".toList] []).isRaised = true := by
  decide

/-! ## Claims about run_frames -/

theorem runFrames_true_eq_filter {μ : Type} (gen : List (List ℕ × μ)) :
    runFrames true gen
      = ((gen.filter (fun p => 15 ≤ frameSpan p.1)).map Prod.fst,
         (gen.filter (fun p => 15 ≤ frameSpan p.1)).map Prod.snd) := by
  induction gen with
  | nil => rfl
  | cons q rest ih =>
    obtain ⟨f, m⟩ := q
    by_cases h : frameSpan f < 15
    · have h' : ¬ 15 ≤ frameSpan f := by omega
      simp [runFrames, List.filter_cons, h, h', ih]
    · have h' : 15 ≤ frameSpan f := by omega
      simp [runFrames, List.filter_cons, h, h', ih]

theorem runFrames_lengths_eq {μ : Type} (b : Bool) (gen : List (List ℕ × μ)) :
    (runFrames b gen).1.length = (runFrames b gen).2.length := by
  induction gen with
  | nil => rfl
  | cons q rest ih =>
    obtain ⟨f, m⟩ := q
    by_cases h : (b = true) ∧ frameSpan f < 15
    · simp [runFrames, if_pos h, ih]
    · simp [runFrames, if_neg h, ih]

/-- C5: with blank-frame rejection enabled, the returned lists are exactly
the frames (and their metadata) whose pixel span reaches 15, in generation
order — so every frame with span below 15 is excluded from both lists and
only the retained frames count toward the delivered samples — and for every
invocation (either rejection setting) the frame and metadata lists have equal
length and are index-aligned. -/
theorem run_frames_blank_rejection {μ : Type} (gen : List (List ℕ × μ)) :
    (runFrames true gen).1 = (gen.filter (fun p => 15 ≤ frameSpan p.1)).map Prod.fst
  ∧ (runFrames true gen).2 = (gen.filter (fun p => 15 ≤ frameSpan p.1)).map Prod.snd
  ∧ (runFrames true gen).1.length = gen.countP (fun p => 15 ≤ frameSpan p.1)
  ∧ (∀ p ∈ gen, frameSpan p.1 < 15 → p.1 ∉ (runFrames true gen).1)
  ∧ (∀ b : Bool, (runFrames b gen).1.length = (runFrames b gen).2.length) := by
  refine ⟨congrArg Prod.fst (runFrames_true_eq_filter gen),
          congrArg Prod.snd (runFrames_true_eq_filter gen), ?_, ?_, fun b => runFrames_lengths_eq b gen⟩
  · rw [congrArg Prod.fst (runFrames_true_eq_filter gen)]
    simp [List.countP_eq_length_filter]
  · intro p hp hspan hmem
    rw [congrArg Prod.fst (runFrames_true_eq_filter gen)] at hmem
    obtain ⟨q, hq, hq1⟩ := List.mem_map.mp hmem
    have := List.of_mem_filter hq
    simp only [decide_eq_true_eq] at this
    rw [hq1] at this
    omega

/-- The two-frame scenario of the spec's testable property: a blank frame
with pixel range 200-205 (span 5) followed by a full-range frame. -/
def genBlankExample : List (List ℕ × ℕ) := [([200, 205], 10), ([0, 255], 20)]

/-- Witness for C5: in `genBlankExample` the span-5 frame is a member of the
input, its span is below 15, and it is excluded from the returned frames. -/
theorem run_frames_blank_rejection_witness :
    ([200, 205], 10) ∈ genBlankExample
  ∧ frameSpan [200, 205] < 15
  ∧ [200, 205] ∉ (runFrames true genBlankExample).1 :=
  ⟨by decide, by decide,
   (run_frames_blank_rejection genBlankExample).2.2.2.1 ([200, 205], 10)
     (by decide) (by decide)⟩

/-! ## Claims about the trajectory engine -/

/-- C6: `lerp(z1, z2, n)` returns exactly `n + 2` states; the first state's
sample is `z1`'s sample, the last (index `n + 1`) is `z2`'s sample, and each
consecutive pair of samples differs elementwise by the constant step
`(z2 - z1) / (n + 1)` — evenly spaced affine combinations. -/
theorem lerp_eq_map {d : ℕ} (z1 z2 : LatentState (Fin d → ℝ)) (n : ℕ) :
    lerp z1 z2 n = (List.range (n + 2)).map (fun i : ℕ =>
      (⟨fun j => z1.sample j + (z2.sample j - z1.sample j) / ((n : ℝ) + 1) * (i : ℝ),
        z1.sample_shape⟩ : LatentState (Fin d → ℝ))) := rfl

theorem range_head?_eq (n : ℕ) : (List.range (n + 2)).head? = some 0 := by
  rw [List.range_succ_eq_map]; rfl

theorem range_getLast?_eq (n : ℕ) : (List.range (n + 2)).getLast? = some (n + 1) := by
  rw [show n + 2 = (n + 1) + 1 from rfl, List.range_succ]
  exact List.getLast?_concat _

theorem lerp_affine_trajectory {d : ℕ} (n : ℕ) (z1 z2 : LatentState (Fin d → ℝ)) :
    (lerp z1 z2 n).length = n + 2
  ∧ ((lerp z1 z2 n).head?).map LatentState.sample = some z1.sample
  ∧ ((lerp z1 z2 n).getLast?).map LatentState.sample = some z2.sample
  ∧ List.Chain' (fun a b => ∀ j, b.sample j - a.sample j
        = (z2.sample j - z1.sample j) / (n + 1)) (lerp z1 z2 n) := by
  refine ⟨?_, ?_, ?_, ?_⟩
  · rw [lerp_eq_map, List.length_map, List.length_range]
  · rw [lerp_eq_map, List.head?_map, range_head?_eq]
    show some _ = some z1.sample
    congr 1
    funext j
    simp
  · rw [lerp_eq_map, List.getLast?_map, range_getLast?_eq]
    show some _ = some z2.sample
    congr 1
    funext j
    have hne : ((n : ℝ) + 1) ≠ 0 := by positivity
    show z1.sample j + (z2.sample j - z1.sample j) / ((n : ℝ) + 1) * ((n + 1 : ℕ) : ℝ)
        = z2.sample j
    push_cast
    field_simp
  · rw [lerp_eq_map, List.chain'_map]
    refine (List.chain'_range_succ _ (n + 1)).mpr ?_
    intro m hm j
    show z1.sample j + (z2.sample j - z1.sample j) / ((n : ℝ) + 1) * ((m + 1 : ℕ) : ℝ)
        - (z1.sample j + (z2.sample j - z1.sample j) / ((n : ℝ) + 1) * (m : ℝ))
        = (z2.sample j - z1.sample j) / ((n : ℝ) + 1)
    push_cast
    ring

theorem map_sample_shape_of_build {γ δ : Type} (l : List γ) (s : γ → δ) (sh : List ℕ) :
    ((l.map (fun x => (⟨s x, sh⟩ : LatentState δ))).map LatentState.sample_shape)
      = List.replicate (l.map (fun x => (⟨s x, sh⟩ : LatentState δ))).length sh := by
  rw [List.map_map, List.length_map]
  exact List.map_const' l sh

/-- C9: all four interpolation schemes preserve the `sample_shape` descriptor
of their first input endpoint unchanged in every state of the returned
trajectory. -/
theorem trajectory_schemes_preserve_sample_shape {d : ℕ} (n : ℕ) (a : ℝ)
    (z1 z2 z0 : LatentState (Fin d → ℝ)) (zs : List (LatentState (Fin d → ℝ)))
    (splev : ℝ → (Fin d → ℝ)) :
    (lerp z1 z2 n).map LatentState.sample_shape
      = List.replicate (lerp z1 z2 n).length z1.sample_shape
  ∧ (slerp z1 z2 n).map LatentState.sample_shape
      = List.replicate (slerp z1 z2 n).length z1.sample_shape
  ∧ (rspline splev (z0 :: zs) n).map LatentState.sample_shape
      = List.replicate (rspline splev (z0 :: zs) n).length z0.sample_shape
  ∧ (lemniscate z1 z2 n a).map LatentState.sample_shape
      = List.replicate (lemniscate z1 z2 n a).length z1.sample_shape := by
  refine ⟨?_, ?_, ?_, ?_⟩
  · rw [lerp_eq_map]
    exact map_sample_shape_of_build _ _ _
  · show ((((linspace 0 (2 * Real.pi) (n + 1)).dropLast).map _).map LatentState.sample_shape)
        = _
    exact map_sample_shape_of_build _ _ _
  · exact map_sample_shape_of_build _ _ _
  · exact map_sample_shape_of_build _ _ _


/-! ## Claims about slerp: geometry of the sampled trajectory -/

theorem dotp_comm {d : ℕ} (u v : Fin d → ℝ) : dotp u v = dotp v u :=
  Finset.sum_congr rfl fun _ _ => mul_comm _ _

theorem dotp_self_nonneg {d : ℕ} (u : Fin d → ℝ) : 0 ≤ dotp u u :=
  Finset.sum_nonneg fun _ _ => mul_self_nonneg _

theorem dotp_self_pos {d : ℕ} (u : Fin d → ℝ) (h : l2norm u ≠ 0) : 0 < dotp u u := by
  have h' : dotp u u ≠ 0 := by
    intro h0
    apply h
    show Real.sqrt (∑ j, u j * u j) = 0
    rw [show (∑ j : Fin d, u j * u j) = dotp u u from rfl, h0, Real.sqrt_zero]
  exact lt_of_le_of_ne (dotp_self_nonneg u) (Ne.symm h')

theorem dotp_normalize_self {d : ℕ} (u : Fin d → ℝ) (h : l2norm u ≠ 0) :
    dotp (normalize u) (normalize u) = 1 := by
  have hpos := dotp_self_pos u h
  have hS : l2norm u * l2norm u = dotp u u := Real.mul_self_sqrt (dotp_self_nonneg u)
  show (∑ j, u j / l2norm u * (u j / l2norm u)) = 1
  calc (∑ j, u j / l2norm u * (u j / l2norm u))
      = ∑ j, (u j * u j) / (l2norm u * l2norm u) :=
        Finset.sum_congr rfl fun j _ => by ring
    _ = (∑ j, u j * u j) / (l2norm u * l2norm u) := by rw [← Finset.sum_div]
    _ = dotp u u / dotp u u := by rw [hS]; rfl
    _ = 1 := div_self (ne_of_gt hpos)

theorem dotp_bilin {d : ℕ} (u v : Fin d → ℝ) (a b e f : ℝ) :
    dotp (fun j => a * u j + b * v j) (fun j => e * u j + f * v j)
      = a * e * dotp u u + a * f * dotp u v + b * e * dotp v u + b * f * dotp v v := by
  show (∑ j, (a * u j + b * v j) * (e * u j + f * v j)) = _
  calc (∑ j, (a * u j + b * v j) * (e * u j + f * v j))
      = ∑ j, (a * e * (u j * u j) + (a * f * (u j * v j)
          + (b * e * (v j * u j) + b * f * (v j * v j)))) :=
        Finset.sum_congr rfl fun j _ => by ring
    _ = _ := by
        rw [Finset.sum_add_distrib, Finset.sum_add_distrib, Finset.sum_add_distrib,
          ← Finset.mul_sum, ← Finset.mul_sum, ← Finset.mul_sum, ← Finset.mul_sum]
        show a * e * dotp u u + (a * f * dotp u v + (b * e * dotp v u + b * f * dotp v v)) = _
        ring

theorem dotp_slerp_points {d : ℕ} (u v : Fin d → ℝ) (huu : dotp u u = 1)
    (hvv : dotp v v = 1) (theta : ℝ) (hc : dotp u v = Real.cos theta)
    (hs : Real.sin theta ≠ 0) (t s : ℝ) :
    dotp (fun j => (Real.sin (theta - t) / Real.sin theta) * u j
                 + (Real.sin t / Real.sin theta) * v j)
         (fun j => (Real.sin (theta - s) / Real.sin theta) * u j
                 + (Real.sin s / Real.sin theta) * v j)
      = Real.cos (s - t) := by
  rw [dotp_bilin, huu, hvv, dotp_comm v u, hc]
  have h1 : Real.sin theta ^ 2 + Real.cos theta ^ 2 = 1 := Real.sin_sq_add_cos_sq theta
  rw [Real.sin_sub, Real.sin_sub, Real.cos_sub]
  field_simp
  linear_combination (-(Real.sin t * Real.sin s)) * h1

theorem dotp_normalize_bounds {d : ℕ} (u v : Fin d → ℝ) (h1 : l2norm u ≠ 0)
    (h2 : l2norm v ≠ 0) :
    -1 ≤ dotp (normalize u) (normalize v) ∧ dotp (normalize u) (normalize v) ≤ 1 := by
  have hcs : dotp (normalize u) (normalize v) ^ 2
      ≤ dotp (normalize u) (normalize u) * dotp (normalize v) (normalize v) := by
    have := Finset.sum_mul_sq_le_sq_mul_sq Finset.univ (normalize u) (normalize v)
    calc dotp (normalize u) (normalize v) ^ 2
        = (∑ j, normalize u j * normalize v j) ^ 2 := rfl
      _ ≤ (∑ j, normalize u j ^ 2) * ∑ j, normalize v j ^ 2 := this
      _ = dotp (normalize u) (normalize u) * dotp (normalize v) (normalize v) := by
          rw [show (∑ j, normalize u j ^ 2) = dotp (normalize u) (normalize u) from
                Finset.sum_congr rfl fun _ _ => sq _,
              show (∑ j, normalize v j ^ 2) = dotp (normalize v) (normalize v) from
                Finset.sum_congr rfl fun _ _ => sq _]
  rw [dotp_normalize_self u h1, dotp_normalize_self v h2, mul_one] at hcs
  constructor
  · nlinarith [hcs]
  · nlinarith [hcs]

theorem clampR_eq_self {x : ℝ} (hlo : -1 ≤ x) (hhi : x ≤ 1) : clampR (-1) 1 x = x := by
  rw [clampR, min_eq_left hhi, max_eq_right hlo]

theorem cos_slerpTheta {d : ℕ} (u v : Fin d → ℝ) (h1 : l2norm u ≠ 0)
    (h2 : l2norm v ≠ 0) :
    Real.cos (slerpTheta u v) = dotp (normalize u) (normalize v) := by
  obtain ⟨hlo, hhi⟩ := dotp_normalize_bounds u v h1 h2
  rw [slerpTheta, clampR_eq_self hlo hhi, Real.cos_arccos hlo hhi]

theorem slerp_angles_eq (n : ℕ) :
    (linspace 0 (2 * Real.pi) (n + 1)).dropLast
      = (List.range n).map (fun k : ℕ => 2 * Real.pi * k / n) := by
  cases n with
  | zero => simp [linspace]
  | succ m =>
    unfold linspace
    rw [if_neg (by omega)]
    rw [show m + 1 + 1 = (m + 1) + 1 from rfl, List.range_succ, List.map_append,
      List.map_cons, List.map_nil, List.dropLast_concat]
    refine List.map_congr_left fun k _ => ?_
    push_cast [Nat.add_sub_cancel]
    ring

theorem slerp_eq_map {d : ℕ} (z1 z2 : LatentState (Fin d → ℝ)) (n : ℕ)
    (htheta : slerpTheta z1.sample z2.sample ≠ 0) :
    slerp z1 z2 n = (List.range n).map (fun k : ℕ =>
      ⟨fun j => (Real.sin (slerpTheta z1.sample z2.sample - 2 * Real.pi * k / n)
                 / Real.sin (slerpTheta z1.sample z2.sample)) * normalize z1.sample j
              + (Real.sin (2 * Real.pi * k / n)
                 / Real.sin (slerpTheta z1.sample z2.sample)) * normalize z2.sample j,
        z1.sample_shape⟩) := by
  show ((linspace 0 (2 * Real.pi) (n + 1)).dropLast).map _ = _
  rw [slerp_angles_eq, List.map_map]
  refine List.map_congr_left fun k _ => ?_
  simp only [Function.comp]
  have h1 : (1 - 2 * Real.pi * (k : ℝ) / n / slerpTheta z1.sample z2.sample)
      * slerpTheta z1.sample z2.sample
      = slerpTheta z1.sample z2.sample - 2 * Real.pi * k / n := by
    rw [sub_mul, one_mul, div_mul_cancel₀ _ htheta]
  have h2 : 2 * Real.pi * (k : ℝ) / n / slerpTheta z1.sample z2.sample
      * slerpTheta z1.sample z2.sample = 2 * Real.pi * k / n :=
    div_mul_cancel₀ _ htheta
  congr 1
  funext j
  rw [h1, h2]

theorem l2norm_eq_one_of_dotp {d : ℕ} (u : Fin d → ℝ) (h : dotp u u = 1) :
    l2norm u = 1 := by
  show Real.sqrt (∑ j, u j * u j) = 1
  rw [show (∑ j : Fin d, u j * u j) = dotp u u from rfl, h, Real.sqrt_one]

/-- The full conclusion of the amended C7 about `slerp(z1, z2, n)`: exactly
`n` states; the `k`-th state is the sine-weighted combination of the two
normalized endpoints at angle `2*pi*k/n` — the `n` sampled angles span a full
`2*pi` rotation; every state has unit norm; consecutive states subtend the
constant angle `2*pi/n` (their dot product is its cosine). -/
def slerpSpec {d : ℕ} (n : ℕ) (z1 z2 : LatentState (Fin d → ℝ)) : Prop :=
    (slerp z1 z2 n).length = n
  ∧ slerp z1 z2 n = (List.range n).map (fun k : ℕ =>
      ⟨fun j => (Real.sin (slerpTheta z1.sample z2.sample - 2 * Real.pi * k / n)
                 / Real.sin (slerpTheta z1.sample z2.sample)) * normalize z1.sample j
              + (Real.sin (2 * Real.pi * k / n)
                 / Real.sin (slerpTheta z1.sample z2.sample)) * normalize z2.sample j,
        z1.sample_shape⟩)
  ∧ (∀ zx ∈ slerp z1 z2 n, l2norm zx.sample = 1)
  ∧ List.Chain' (fun zx zy => dotp zx.sample zy.sample = Real.cos (2 * Real.pi / n))
      (slerp z1 z2 n)

/-- C7, amended: for endpoints with nonzero norms whose normalized angle lies
strictly between `0` and `pi`, `slerp` satisfies `slerpSpec`. -/
theorem slerp_full_circle_trajectory {d : ℕ} (n : ℕ) (z1 z2 : LatentState (Fin d → ℝ))
    (h1 : l2norm z1.sample ≠ 0) (h2 : l2norm z2.sample ≠ 0)
    (htheta0 : 0 < slerpTheta z1.sample z2.sample)
    (hthetapi : slerpTheta z1.sample z2.sample < Real.pi) :
    slerpSpec n z1 z2 := by
  have htheta : slerpTheta z1.sample z2.sample ≠ 0 := ne_of_gt htheta0
  have hs : Real.sin (slerpTheta z1.sample z2.sample) ≠ 0 :=
    ne_of_gt (Real.sin_pos_of_pos_of_lt_pi htheta0 hthetapi)
  have huu := dotp_normalize_self z1.sample h1
  have hvv := dotp_normalize_self z2.sample h2
  have hc : dotp (normalize z1.sample) (normalize z2.sample)
      = Real.cos (slerpTheta z1.sample z2.sample) := (cos_slerpTheta _ _ h1 h2).symm
  have hmap := slerp_eq_map z1 z2 n htheta
  refine ⟨by rw [hmap, List.length_map, List.length_range], hmap, ?_, ?_⟩
  · intro zx hzx
    rw [hmap] at hzx
    obtain ⟨k, hk, rfl⟩ := List.mem_map.mp hzx
    have hpt := dotp_slerp_points (normalize z1.sample) (normalize z2.sample) huu hvv
        (slerpTheta z1.sample z2.sample) hc hs
        (2 * Real.pi * k / n) (2 * Real.pi * k / n)
    rw [sub_self, Real.cos_zero] at hpt
    exact l2norm_eq_one_of_dotp _ hpt
  · rw [hmap, List.chain'_map]
    cases n with
    | zero => simp
    | succ m =>
      refine (List.chain'_range_succ _ m).mpr fun k hk => ?_
      have hm : (((m + 1 : ℕ) : ℝ)) ≠ 0 := by positivity
      have harg : 2 * Real.pi * ((k + 1 : ℕ) : ℝ) / ((m + 1 : ℕ) : ℝ)
          - 2 * Real.pi * (k : ℝ) / ((m + 1 : ℕ) : ℝ)
          = 2 * Real.pi / ((m + 1 : ℕ) : ℝ) := by
        field_simp
        ring
      have hpt := dotp_slerp_points (normalize z1.sample) (normalize z2.sample) huu hvv
          (slerpTheta z1.sample z2.sample) hc hs
          (2 * Real.pi * (k : ℝ) / ((m + 1 : ℕ) : ℝ))
          (2 * Real.pi * ((k + 1 : ℕ) : ℝ) / ((m + 1 : ℕ) : ℝ))
      rw [harg] at hpt
      exact hpt

theorem l2norm_e1 : l2norm (![(1:ℝ), 0]) = 1 := by
  show Real.sqrt _ = 1
  rw [show (∑ j, ![(1:ℝ), 0] j * ![(1:ℝ), 0] j) = 1 by
    rw [Fin.sum_univ_two]; norm_num]
  exact Real.sqrt_one

theorem l2norm_e2 : l2norm (![(0:ℝ), 1]) = 1 := by
  show Real.sqrt _ = 1
  rw [show (∑ j, ![(0:ℝ), 1] j * ![(0:ℝ), 1] j) = 1 by
    rw [Fin.sum_univ_two]; norm_num]
  exact Real.sqrt_one

theorem slerpTheta_e1_e2 : slerpTheta (![(1:ℝ), 0]) (![(0:ℝ), 1]) = Real.pi / 2 := by
  rw [slerpTheta]
  have hd : dotp (normalize (![(1:ℝ), 0])) (normalize (![(0:ℝ), 1])) = 0 := by
    show (∑ j, _) = (0:ℝ)
    rw [Fin.sum_univ_two]
    simp [normalize, l2norm_e1, l2norm_e2]
  rw [hd, show clampR (-1) 1 (0:ℝ) = 0 from by norm_num [clampR], Real.arccos_zero]

theorem slerp_full_circle_trajectory_witness :
    l2norm (![(1:ℝ), 0]) ≠ 0 ∧ l2norm (![(0:ℝ), 1]) ≠ 0
  ∧ 0 < slerpTheta (![(1:ℝ), 0]) (![(0:ℝ), 1])
  ∧ slerpTheta (![(1:ℝ), 0]) (![(0:ℝ), 1]) < Real.pi
  ∧ slerpSpec 2 (⟨![(1:ℝ), 0], []⟩ : LatentState (Fin 2 → ℝ)) ⟨![(0:ℝ), 1], []⟩ := by
  have ha : l2norm (![(1:ℝ), 0]) ≠ 0 := by rw [l2norm_e1]; norm_num
  have hb : l2norm (![(0:ℝ), 1]) ≠ 0 := by rw [l2norm_e2]; norm_num
  have hpos : 0 < slerpTheta (![(1:ℝ), 0]) (![(0:ℝ), 1]) := by
    rw [slerpTheta_e1_e2]; linarith [Real.pi_pos]
  have hlt : slerpTheta (![(1:ℝ), 0]) (![(0:ℝ), 1]) < Real.pi := by
    rw [slerpTheta_e1_e2]; linarith [Real.pi_pos]
  exact ⟨ha, hb, hpos, hlt,
    slerp_full_circle_trajectory 2 (⟨![(1:ℝ), 0], []⟩ : LatentState (Fin 2 → ℝ))
      ⟨![(0:ℝ), 1], []⟩ ha hb hpos hlt⟩

/-- C8, amended: when the angle between the normalized endpoints lies
strictly between `0` and `pi` (and both endpoints have nonzero norm) every
divisor appearing in `slerp` — the two normalization norms, the `angle/theta`
divisor `theta`, and the sine-weight divisor `sin(theta)` — is nonzero. -/
theorem slerp_divisors_nonzero {d : ℕ} (z1 z2 : LatentState (Fin d → ℝ))
    (h1 : l2norm z1.sample ≠ 0) (h2 : l2norm z2.sample ≠ 0)
    (htheta0 : 0 < slerpTheta z1.sample z2.sample)
    (hthetapi : slerpTheta z1.sample z2.sample < Real.pi) :
    l2norm z1.sample ≠ 0 ∧ l2norm z2.sample ≠ 0
  ∧ slerpTheta z1.sample z2.sample ≠ 0
  ∧ Real.sin (slerpTheta z1.sample z2.sample) ≠ 0 :=
  ⟨h1, h2, ne_of_gt htheta0,
   ne_of_gt (Real.sin_pos_of_pos_of_lt_pi htheta0 hthetapi)⟩

theorem slerp_divisors_nonzero_witness :
    l2norm (![(1:ℝ), 0]) ≠ 0 ∧ l2norm (![(0:ℝ), 1]) ≠ 0
  ∧ 0 < slerpTheta (![(1:ℝ), 0]) (![(0:ℝ), 1])
  ∧ slerpTheta (![(1:ℝ), 0]) (![(0:ℝ), 1]) < Real.pi
  ∧ (l2norm (![(1:ℝ), 0]) ≠ 0 ∧ l2norm (![(0:ℝ), 1]) ≠ 0
     ∧ slerpTheta (![(1:ℝ), 0]) (![(0:ℝ), 1]) ≠ 0
     ∧ Real.sin (slerpTheta (![(1:ℝ), 0]) (![(0:ℝ), 1])) ≠ 0) := by
  have ha : l2norm (![(1:ℝ), 0]) ≠ 0 := by rw [l2norm_e1]; norm_num
  have hb : l2norm (![(0:ℝ), 1]) ≠ 0 := by rw [l2norm_e2]; norm_num
  have hpos : 0 < slerpTheta (![(1:ℝ), 0]) (![(0:ℝ), 1]) := by
    rw [slerpTheta_e1_e2]; linarith [Real.pi_pos]
  have hlt : slerpTheta (![(1:ℝ), 0]) (![(0:ℝ), 1]) < Real.pi := by
    rw [slerpTheta_e1_e2]; linarith [Real.pi_pos]
  exact ⟨ha, hb, hpos, hlt,
    slerp_divisors_nonzero (⟨![(1:ℝ), 0], []⟩ : LatentState (Fin 2 → ℝ))
      ⟨![(0:ℝ), 1], []⟩ ha hb hpos hlt⟩

theorem l2norm_single_one : l2norm (![(1:ℝ)]) = 1 := by
  show Real.sqrt _ = 1
  rw [show (∑ j, ![(1:ℝ)] j * ![(1:ℝ)] j) = 1 by rw [Fin.sum_univ_one]; norm_num]
  exact Real.sqrt_one

theorem l2norm_single_negone : l2norm (![(-1:ℝ)]) = 1 := by
  show Real.sqrt _ = 1
  rw [show (∑ j, ![(-1:ℝ)] j * ![(-1:ℝ)] j) = 1 by rw [Fin.sum_univ_one]; norm_num]
  exact Real.sqrt_one

theorem slerpTheta_antipodal : slerpTheta (![(1:ℝ)]) (![(-1:ℝ)]) = Real.pi := by
  rw [slerpTheta]
  have hd : dotp (normalize (![(1:ℝ)])) (normalize (![(-1:ℝ)])) = -1 := by
    show (∑ j, _) = (-1:ℝ)
    rw [Fin.sum_univ_one]
    simp [normalize, l2norm_single_one, l2norm_single_negone]
  rw [hd, show clampR (-1) 1 (-1:ℝ) = -1 from by norm_num [clampR], Real.arccos_neg_one]

/-- C8, counterexample to the claim as stated: antipodal endpoints give a
nonzero angle (`theta = pi`) and nonzero norms — the claim's precondition —
yet the sine-weight divisor `sin(theta)` is zero, so the nonzero-angle
precondition does not make every division well-defined. -/
theorem slerp_angle_pi_sin_zero :
    l2norm (![(1:ℝ)]) ≠ 0 ∧ l2norm (![(-1:ℝ)]) ≠ 0
  ∧ slerpTheta (![(1:ℝ)]) (![(-1:ℝ)]) ≠ 0
  ∧ Real.sin (slerpTheta (![(1:ℝ)]) (![(-1:ℝ)])) = 0 := by
  refine ⟨by rw [l2norm_single_one]; norm_num, by rw [l2norm_single_negone]; norm_num,
    ?_, ?_⟩
  · rw [slerpTheta_antipodal]; exact Real.pi_ne_zero
  · rw [slerpTheta_antipodal]; exact Real.sin_pi

/-- C7, counterexample to the claim as stated: for the same antipodal
endpoints — nonzero norms, nonzero angle `theta = pi`, so the claim's
precondition holds — `slerp` with `n = 4` samples its index-1 state at angle
`2*pi/4 = pi/2`, where both sine-weight numerators equal `1` while the shared
divisor `sin(theta) = sin(pi)` is `0`: the weights genuinely divide a nonzero
numerator by zero, so no state value can be a unit-norm combination (the
float program produces astronomically large values; in this total-division
model the state is the zero vector), and the returned state's norm is `0`,
not `1`. -/
theorem slerp_angle_pi_not_unit_norm :
    slerpTheta (![(1:ℝ)]) (![(-1:ℝ)]) ≠ 0
  ∧ Real.sin (2 * Real.pi * ((1:ℕ):ℝ) / ((4:ℕ):ℝ)) = 1
  ∧ Real.sin (slerpTheta (![(1:ℝ)]) (![(-1:ℝ)]) - 2 * Real.pi * ((1:ℕ):ℝ) / ((4:ℕ):ℝ)) = 1
  ∧ Real.sin (slerpTheta (![(1:ℝ)]) (![(-1:ℝ)])) = 0
  ∧ (slerp (⟨![(1:ℝ)], []⟩ : LatentState (Fin 1 → ℝ)) ⟨![(-1:ℝ)], []⟩ 4).length = 4
  ∧ ((slerp (⟨![(1:ℝ)], []⟩ : LatentState (Fin 1 → ℝ)) ⟨![(-1:ℝ)], []⟩ 4)[1]?).map
      (fun zx => l2norm zx.sample) = some 0
  ∧ ((slerp (⟨![(1:ℝ)], []⟩ : LatentState (Fin 1 → ℝ)) ⟨![(-1:ℝ)], []⟩ 4)[1]?).map
      (fun zx => l2norm zx.sample) ≠ some 1 := by
  have htheta : slerpTheta (⟨![(1:ℝ)], []⟩ : LatentState (Fin 1 → ℝ)).sample
      (⟨![(-1:ℝ)], []⟩ : LatentState (Fin 1 → ℝ)).sample = Real.pi := slerpTheta_antipodal
  have hne : slerpTheta (⟨![(1:ℝ)], []⟩ : LatentState (Fin 1 → ℝ)).sample
      (⟨![(-1:ℝ)], []⟩ : LatentState (Fin 1 → ℝ)).sample ≠ 0 := by
    rw [htheta]; exact Real.pi_ne_zero
  have harg : 2 * Real.pi * ((1:ℕ):ℝ) / ((4:ℕ):ℝ) = Real.pi / 2 := by
    push_cast
    ring
  have hmap := slerp_eq_map (⟨![(1:ℝ)], []⟩ : LatentState (Fin 1 → ℝ))
      ⟨![(-1:ℝ)], []⟩ 4 hne
  have hstate : ((slerp (⟨![(1:ℝ)], []⟩ : LatentState (Fin 1 → ℝ)) ⟨![(-1:ℝ)], []⟩ 4)[1]?).map
      (fun zx => l2norm zx.sample) = some 0 := by
    rw [hmap, List.getElem?_map, show (List.range 4)[1]? = some 1 from rfl,
      Option.map_some', Option.map_some']
    congr 1
    have hz : (fun j : Fin 1 =>
        (Real.sin (slerpTheta (⟨![(1:ℝ)], []⟩ : LatentState (Fin 1 → ℝ)).sample
            (⟨![(-1:ℝ)], []⟩ : LatentState (Fin 1 → ℝ)).sample
            - 2 * Real.pi * ((1:ℕ):ℝ) / ((4:ℕ):ℝ))
          / Real.sin (slerpTheta (⟨![(1:ℝ)], []⟩ : LatentState (Fin 1 → ℝ)).sample
            (⟨![(-1:ℝ)], []⟩ : LatentState (Fin 1 → ℝ)).sample))
          * normalize (⟨![(1:ℝ)], []⟩ : LatentState (Fin 1 → ℝ)).sample j
        + (Real.sin (2 * Real.pi * ((1:ℕ):ℝ) / ((4:ℕ):ℝ))
          / Real.sin (slerpTheta (⟨![(1:ℝ)], []⟩ : LatentState (Fin 1 → ℝ)).sample
            (⟨![(-1:ℝ)], []⟩ : LatentState (Fin 1 → ℝ)).sample))
          * normalize (⟨![(-1:ℝ)], []⟩ : LatentState (Fin 1 → ℝ)).sample j)
        = fun _ : Fin 1 => (0:ℝ) := by
      funext j
      rw [htheta, Real.sin_pi, div_zero, div_zero, zero_mul, zero_mul, add_zero]
    show l2norm _ = 0
    rw [hz]
    show Real.sqrt _ = 0
    rw [show (∑ _j : Fin 1, (0:ℝ) * 0) = 0 by simp]
    exact Real.sqrt_zero
  refine ⟨hne, by rw [harg]; exact Real.sin_pi_div_two, ?_, ?_, by rw [hmap]; simp,
    hstate, ?_⟩
  · rw [slerpTheta_antipodal, harg, show Real.pi - Real.pi / 2 = Real.pi / 2 by ring]
    exact Real.sin_pi_div_two
  · rw [slerpTheta_antipodal]
    exact Real.sin_pi
  · rw [hstate]
    simp

end NeuralCanvas
